import Mathlib

/-!
Shallow embedding of the TaskManager backend (Express routes in
`src/routes/tasks.js` together with the mongoose `Task` schema and its
`pre('save')` / `pre('findOneAndUpdate')` hooks).  The persistence engine is
modelled as a plain list of task records; each HTTP route handler becomes a
pure function from the store (and the request fields) to either an error or
the new store plus the record it returns.  Timestamps are modelled as natural
numbers, and the case-insensitive pattern matching the routes delegate to the
document store is modelled as ASCII-case-insensitive prefix / substring tests.
-/

namespace TaskManager

/-- ASCII lowercasing of one character; models the case-insensitive `i`
option that every search regex in the routes uses. -/
def lowerChar (c : Char) : Char :=
  if 'A' ≤ c && c ≤ 'Z' then Char.ofNat (c.toNat + 32) else c

/-- Lowercase every character of a string. -/
def lowerStr (s : String) : String := String.mk (s.data.map lowerChar)

/-- Whitespace stripped by JavaScript `String.prototype.trim`. -/
def isSpaceChar (c : Char) : Bool := c = ' ' || c = '\t' || c = '\n' || c = '\r'

/-- Strip leading and trailing whitespace from a character list. -/
def trimData (l : List Char) : List Char :=
  ((l.dropWhile isSpaceChar).reverse.dropWhile isSpaceChar).reverse

/-- Model of JavaScript `String.prototype.trim` (also the mongoose
`trim: true` schema option): strip leading and trailing whitespace. -/
def jsTrim (s : String) : String :=
  String.mk (trimData s.data)

/-- Does the first character list occur at the head of the second? -/
def hasPrefixB : List Char → List Char → Bool
  | [], _ => true
  | _ :: _, [] => false
  | a :: as, b :: bs => a == b && hasPrefixB as bs

/-- Does the first character list occur contiguously anywhere in the second? -/
def hasSubstrB (needle : List Char) : List Char → Bool
  | [] => hasPrefixB needle []
  | c :: t => hasPrefixB needle (c :: t) || hasSubstrB needle t

/-- Case-insensitive "starts with": models the store evaluating the anchored
pattern `^term` with option `i` against a field. -/
def ciStarts (term s : String) : Bool :=
  hasPrefixB (lowerStr term).data (lowerStr s).data

/-- Case-insensitive "contains": models the store evaluating the unanchored
pattern `term` with option `i` against a field. -/
def ciContains (term s : String) : Bool :=
  hasSubstrB (lowerStr term).data (lowerStr s).data

/-- The status enumeration of the `Task` schema. -/
inductive Status
  | pending
  | inProgress
  | completed
deriving DecidableEq

/-- The string stored for each status value. -/
def Status.toStr : Status → String
  | Status.pending => "pending"
  | Status.inProgress => "in-progress"
  | Status.completed => "completed"

/-- Membership test in `['pending', 'in-progress', 'completed']`, as used by
the routes to validate a requested status value. -/
def parseStatus (s : String) : Option Status :=
  if s = "pending" then some Status.pending
  else if s = "in-progress" then some Status.inProgress
  else if s = "completed" then some Status.completed
  else none

/-- One task document.  `deletedAt` and `completedAt` are `Option Nat`
(`none` models a `null` date), `createdAt` is the creation timestamp that the
`timestamps: true` schema option maintains. -/
structure Task where
  id : Nat
  title : String
  description : String
  status : Status
  isDeleted : Bool
  deletedAt : Option Nat
  completedAt : Option Nat
  createdAt : Nat
deriving DecidableEq

/-- The error taxonomy of the routes: `validation` covers the 400 responses
for malformed input, `notFound` the 404 responses, `invalidTransition` the
400 responses for the completed-task rules, and `store` the 500 responses
raised when a schema validator rejects a write. -/
inductive TaskError
  | validation (msg : String)
  | notFound
  | invalidTransition (msg : String)
  | store (msg : String)
deriving DecidableEq

/-- The `updateData` object a route accumulates before calling
`findByIdAndUpdate`: each field is present exactly when the route put it
there. -/
structure UpdateData where
  title : Option String := none
  description : Option String := none
  status : Option Status := none
deriving DecidableEq

/-- `Object.keys(updateData).length === 0`. -/
def UpdateData.isEmpty (u : UpdateData) : Bool :=
  u.title.isNone && u.description.isNone && u.status.isNone

/-- Title handling shared by PUT and PATCH (tasks.js lines 211-216 and
272-277): a provided title must be non-blank after trimming, and is stored
trimmed. -/
def checkTitle : Option String → Except TaskError (Option String)
  | none => Except.ok none
  | some t =>
      if jsTrim t = "" then Except.error (TaskError.validation "Title cannot be empty")
      else Except.ok (some (jsTrim t))

/-- Description handling shared by PUT and PATCH: a provided description is
stored trimmed, a falsy one as the empty string. -/
def checkDescription : Option String → Option String
  | none => none
  | some d => some (jsTrim d)

/-- Status handling shared by PUT and PATCH: a provided status must be one of
the three enumerated values. -/
def checkStatus : Option String → Except TaskError (Option Status)
  | none => Except.ok none
  | some s =>
      match parseStatus s with
      | some st => Except.ok (some st)
      | none => Except.error (TaskError.validation "Invalid status value")

/-- Field validation of the update routes, in source order
(title, then description, then status). -/
def buildUpdateData (pTitle pDesc pStatus : Option String) :
    Except TaskError UpdateData :=
  match checkTitle pTitle with
  | Except.error e => Except.error e
  | Except.ok t =>
      match checkStatus pStatus with
      | Except.error e => Except.error e
      | Except.ok s =>
          Except.ok { title := t, description := checkDescription pDesc, status := s }

/-- Apply an `updateData` object to a document, including the schema's
`pre('findOneAndUpdate')` hook: when the update carries a status, a completed
status stamps `completedAt` and any other status clears it; when it carries
no status, `completedAt` is untouched. -/
def applyUpdateData (t : Task) (u : UpdateData) (now : Nat) : Task :=
  let t1 : Task :=
    { t with
      title := u.title.getD t.title
      description := u.description.getD t.description
      status := u.status.getD t.status }
  match u.status with
  | some Status.completed => { t1 with completedAt := some now }
  | some _ => { t1 with completedAt := none }
  | none => t1

/-- The schema validators that `runValidators: true` applies to the fields of
an update: title at most 100 characters (and, being required, non-blank),
description at most 500 characters. -/
def validUpdateData (u : UpdateData) : Bool :=
  (match u.title with
   | some s => decide (s.length ≤ 100) && decide (jsTrim s ≠ "")
   | none => true) &&
  (match u.description with
   | some s => decide (s.length ≤ 500)
   | none => true)

/-- The final `findByIdAndUpdate` call of both update routes: run the schema
validators, apply the update to the matching document, and return the new
store together with the updated document. -/
def finishUpdate (store : List Task) (i : Nat) (existing : Task)
    (u : UpdateData) (now : Nat) : Except TaskError (List Task × Task) :=
  if validUpdateData u then
    Except.ok
      (store.map (fun t => if t.id == i then applyUpdateData existing u now else t),
       applyUpdateData existing u now)
  else Except.error (TaskError.store "Failed to update task")

/-- The completed-task rules of `router.put` (tasks.js lines 234-245):
a requested `in-progress` status reverts the task and drops any requested
title/description, any other explicitly requested status is rejected, and a
patch without a status cannot edit a completed task at all. -/
def putCompletedRules (pStatus : Option String) : Except TaskError UpdateData :=
  match pStatus with
  | some s =>
      if s = "in-progress" then
        Except.ok { title := none, description := none, status := some Status.inProgress }
      else if s ≠ "" then
        Except.error
          (TaskError.invalidTransition "Completed tasks can only be reverted to in-progress")
      else
        Except.error (TaskError.invalidTransition "Completed tasks cannot be edited")
  | none => Except.error (TaskError.invalidTransition "Completed tasks cannot be edited")

/-- The completed-task rules of `router.patch` (tasks.js lines 300-309):
as for PUT, except that a patch without a status succeeds after its
title/description fields are silently dropped. -/
def patchCompletedRules (u0 : UpdateData) (pStatus : Option String) :
    Except TaskError UpdateData :=
  match pStatus with
  | some s =>
      if s = "in-progress" then
        Except.ok { title := none, description := none, status := some Status.inProgress }
      else if s ≠ "" then
        Except.error
          (TaskError.invalidTransition "Completed tasks can only be reverted to in-progress")
      else Except.ok { u0 with title := none, description := none }
  | none => Except.ok { u0 with title := none, description := none }

/-- `router.put('/:id')` (tasks.js lines 203-261): full update. -/
def putUpdateTask (store : List Task) (i : Nat) (pTitle pDesc pStatus : Option String)
    (now : Nat) : Except TaskError (List Task × Task) :=
  match buildUpdateData pTitle pDesc pStatus with
  | Except.error e => Except.error e
  | Except.ok u0 =>
      match store.find? (fun t => t.id == i) with
      | none => Except.error TaskError.notFound
      | some existing =>
          match (if existing.status = Status.completed
                 then putCompletedRules pStatus
                 else Except.ok u0) with
          | Except.error e => Except.error e
          | Except.ok u => finishUpdate store i existing u now

/-- `router.patch('/:id')` (tasks.js lines 264-325): partial update; rejects
an empty patch before looking the task up. -/
def patchUpdateTask (store : List Task) (i : Nat) (pTitle pDesc pStatus : Option String)
    (now : Nat) : Except TaskError (List Task × Task) :=
  match buildUpdateData pTitle pDesc pStatus with
  | Except.error e => Except.error e
  | Except.ok u0 =>
      if u0.isEmpty then Except.error (TaskError.validation "No fields provided for update")
      else
        match store.find? (fun t => t.id == i) with
        | none => Except.error TaskError.notFound
        | some existing =>
            match (if existing.status = Status.completed
                   then patchCompletedRules u0 pStatus
                   else Except.ok u0) with
            | Except.error e => Except.error e
            | Except.ok u => finishUpdate store i existing u now

/-- The schema's `pre('save')` hook as it fires on a freshly constructed
document (whose status field always counts as modified): a completed status
stamps `completedAt` when unset, any other status clears it. -/
def preSaveHook (t : Task) (now : Nat) : Task :=
  if t.status = Status.completed then
    if t.completedAt = none then { t with completedAt := some now } else t
  else { t with completedAt := none }

/-- The document-level schema validators checked on `save`: title required and
at most 100 characters, description at most 500 characters. -/
def validDoc (t : Task) : Bool :=
  decide (jsTrim t.title ≠ "") && decide (t.title.length ≤ 100) &&
    decide (t.description.length ≤ 500)

/-- The document `router.post('/')` constructs (tasks.js lines 17-21): both
fields trimmed, a missing or falsy description stored as the empty string,
and `status: 'pending'` forced whatever status the caller sent. -/
def newDoc (pDesc : Option String) (tl : String) (newId now : Nat) : Task :=
  { id := newId
    title := jsTrim tl
    description := (pDesc.map jsTrim).getD ""
    status := Status.pending
    isDeleted := false
    deletedAt := none
    completedAt := none
    createdAt := now }

/-- `task.save()`: run the `pre('save')` hook, then the document-level schema
validators; a validator failure surfaces as the route's 500 response. -/
def saveDoc (store : List Task) (doc : Task) (now : Nat) :
    Except TaskError (List Task × Task) :=
  if validDoc (preSaveHook doc now) then
    Except.ok (store ++ [preSaveHook doc now], preSaveHook doc now)
  else Except.error (TaskError.store "Failed to create task")

/-- `router.post('/')` (tasks.js lines 7-29): create.  The route validates
that the title is present and non-blank after trimming, builds the document
and saves it. -/
def createTask (store : List Task) (pTitle pDesc pStatus : Option String)
    (newId now : Nat) : Except TaskError (List Task × Task) :=
  match pTitle with
  | none => Except.error (TaskError.validation "Title is required")
  | some tl =>
      if jsTrim tl = "" then Except.error (TaskError.validation "Title is required")
      else saveDoc store (newDoc pDesc tl newId now) now

/-- `router.delete('/:id')` (tasks.js lines 328-348): soft delete via
`findByIdAndUpdate` with `{ isDeleted: true, deletedAt: new Date() }`; the
update carries no status, so the `pre('findOneAndUpdate')` hook leaves
`completedAt` untouched. -/
def softDeleteTask (store : List Task) (i now : Nat) :
    Except TaskError (List Task × Task) :=
  match store.find? (fun t => t.id == i) with
  | none => Except.error TaskError.notFound
  | some t0 =>
      Except.ok
        (store.map (fun t =>
          if t.id == i then { t with isDeleted := true, deletedAt := some now } else t),
         { t0 with isDeleted := true, deletedAt := some now })

/-- `router.patch('/:id/restore')` (tasks.js lines 351-367): restore via
`findByIdAndUpdate` with `{ isDeleted: false, deletedAt: null }`. -/
def restoreTask (store : List Task) (i : Nat) :
    Except TaskError (List Task × Task) :=
  match store.find? (fun t => t.id == i) with
  | none => Except.error TaskError.notFound
  | some t0 =>
      Except.ok
        (store.map (fun t =>
          if t.id == i then { t with isDeleted := false, deletedAt := none } else t),
         { t0 with isDeleted := false, deletedAt := none })

/-- `router.delete('/:id/hard')` (tasks.js lines 370-382): permanent removal
via `findByIdAndDelete`. -/
def hardDeleteTask (store : List Task) (i : Nat) :
    Except TaskError (List Task × Task) :=
  match store.find? (fun t => t.id == i) with
  | none => Except.error TaskError.notFound
  | some t0 => Except.ok (store.filter (fun t => !(t.id == i)), t0)

/-- `router.get('/:id')` (tasks.js lines 184-200): `findById`. -/
def getTask (store : List Task) (i : Nat) : Option Task :=
  store.find? (fun t => t.id == i)

/-- The query parameters of the list routes, each as the raw string the
transport delivered (or `none` when absent). -/
structure ListQuery where
  keyword : Option String := none
  status : Option String := none
  page : Option String := none
  limit : Option String := none
  includeDeleted : Option String := none
deriving DecidableEq

/-- Visibility filter of `GET '/'` (tasks.js lines 39-41): soft-deleted
records are excluded unless `includeDeleted` is the string `'true'` (its
default is `'false'`). -/
def visibleOk (q : ListQuery) (t : Task) : Bool :=
  if q.includeDeleted = some "true" then true else !t.isDeleted

/-- Status filter of the list routes (tasks.js lines 44-46 and 149-151): a
truthy status that is one of the enumerated values restricts the results;
anything else imposes no restriction. -/
def statusFilterOk (s? : Option String) (t : Task) : Bool :=
  match s? with
  | some s => if (parseStatus s).isSome then t.status.toStr == s else true
  | none => true

/-- The effective search term: a supplied keyword is trimmed and an empty
result means no keyword search (tasks.js lines 49-50). -/
def keywordTermOf : Option String → Option String
  | some k => if jsTrim k = "" then none else some (jsTrim k)
  | none => none

/-- The `$or` of the four search conditions (tasks.js lines 53-64): title or
description starts with or contains the term, case-insensitively. -/
def orMatch (term : String) (t : Task) : Bool :=
  ciStarts term t.title || ciStarts term t.description ||
    ciContains term t.title || ciContains term t.description

/-- Keyword part of the list filter. -/
def kwOk (k? : Option String) (t : Task) : Bool :=
  match keywordTermOf k? with
  | some term => orMatch term t
  | none => true

/-- The complete filter object of `GET '/'`. -/
def taskFilterOk (q : ListQuery) (t : Task) : Bool :=
  visibleOk q t && statusFilterOk q.status t && kwOk q.keyword t

/-- The complete filter object of `GET '/trash/list'` (tasks.js line 148):
`isDeleted: true` plus the status and keyword filters. -/
def trashFilterOk (q : ListQuery) (t : Task) : Bool :=
  t.isDeleted && statusFilterOk q.status t && kwOk q.keyword t

/-- The `priority` field the aggregation pipeline adds (tasks.js lines
83-101): 3 when the title starts with the term, else 2 when the description
does, else 1 when the title contains it, else 0. -/
def priorityOf (term : String) (t : Task) : Nat :=
  if ciStarts term t.title then 3
  else if ciStarts term t.description then 2
  else if ciContains term t.title then 1
  else 0

/-- The `$sort: { priority: -1, createdAt: -1 }` order of the keyword
pipeline: `a` may come before `b` when `a` has higher priority, or equal
priority and a later-or-equal creation time. -/
def rPri (term : String) (a b : Task) : Prop :=
  priorityOf term b < priorityOf term a ∨
    (priorityOf term b = priorityOf term a ∧ b.createdAt ≤ a.createdAt)

/-- The `sort({ createdAt: -1 })` order of the keywordless listing. -/
def rCreated (a b : Task) : Prop := b.createdAt ≤ a.createdAt

/-- Sort key for `deletedAt` descending: a null date sorts below every real
date, matching the store's ordering of null under a descending sort. -/
def deletedKey (t : Task) : Nat :=
  match t.deletedAt with
  | some n => n + 1
  | none => 0

/-- The `sort({ deletedAt: -1 })` order of the trash listing. -/
def rDeleted (a b : Task) : Prop := deletedKey b ≤ deletedKey a

instance (term : String) : DecidableRel (rPri term) := fun a b => by
  unfold rPri; exact inferInstance

instance : DecidableRel rCreated := fun a b => by
  unfold rCreated; exact inferInstance

instance : DecidableRel rDeleted := fun a b => by
  unfold rDeleted; exact inferInstance

instance (term : String) : IsTotal Task (rPri term) :=
  ⟨fun a b => by unfold rPri; omega⟩

instance (term : String) : IsTrans Task (rPri term) :=
  ⟨fun a b c hab hbc => by unfold rPri at *; omega⟩

instance : IsTotal Task rCreated := ⟨fun a b => by unfold rCreated; omega⟩

instance : IsTrans Task rCreated := ⟨fun a b c hab hbc => by unfold rCreated at *; omega⟩

instance : IsTotal Task rDeleted := ⟨fun a b => by unfold rDeleted; omega⟩

instance : IsTrans Task rDeleted := ⟨fun a b c hab hbc => by unfold rDeleted at *; omega⟩

/-- The full ordered result set of `GET '/'` before pagination: with a
keyword, the aggregation pipeline filters and sorts by priority then
creation time descending; without one, `find(filter)` sorts by creation time
descending. -/
def listTasksAll (q : ListQuery) (ts : List Task) : List Task :=
  match keywordTermOf q.keyword with
  | some term => List.insertionSort (rPri term) (ts.filter (taskFilterOk q))
  | none => List.insertionSort rCreated (ts.filter (taskFilterOk q))

/-- The full ordered result set of `GET '/trash/list'` before pagination:
filtered to soft-deleted records and sorted by `deletedAt` descending. -/
def listTrashAll (q : ListQuery) (ts : List Task) : List Task :=
  List.insertionSort rDeleted (ts.filter (trashFilterOk q))

/-- Value of a maximal run of leading decimal digits, accumulator style;
stops at the first non-digit as JavaScript `parseInt` does. -/
def digitsVal : List Char → Nat → Nat
  | [], acc => acc
  | c :: cs, acc => if c.isDigit then digitsVal cs (acc * 10 + (c.toNat - 48)) else acc

/-- Model of JavaScript `parseInt` on the plain decimal strings the API
receives: an optional minus sign followed by at least one digit parses to an
integer, anything else is `NaN`, modelled as `none`. -/
def parseIntJS (s : String) : Option Int :=
  match s.data with
  | [] => none
  | '-' :: c :: cs =>
      if c.isDigit then some (-(digitsVal (c :: cs) 0 : Int)) else none
  | '-' :: [] => none
  | c :: cs => if c.isDigit then some ((digitsVal (c :: cs) 0 : Int)) else none

/-- The effective page number: the destructuring default `page = 1` applies
only when the parameter is absent; a present parameter goes through
`parseInt`, so a non-numeric one yields `NaN` (`none`). -/
def effPage (q : ListQuery) : Option Int :=
  match q.page with
  | none => some 1
  | some s => parseIntJS s

/-- The effective limit, with destructuring default `limit = 10`. -/
def effLimit (q : ListQuery) : Option Int :=
  match q.limit with
  | none => some 10
  | some s => parseIntJS s

/-- The body of a list response: the page of tasks plus the pagination
metadata `{ current, pages, total }`. -/
structure PagedResult where
  tasks : List Task
  current : Int
  pages : Int
  total : Nat
deriving DecidableEq

/-- `Math.ceil(total / limit)` for a positive integer limit. -/
def ceilDivNat (total l : Nat) : Nat := (total + l - 1) / l

/-- Window and metadata shared by both list routes, given the full ordered
result set and the count `countDocuments(filter)` returns.  A `NaN` page or
limit (from a non-numeric parameter) poisons `skip`, `current` and `pages`
and the request does not produce the normal response, modelled as `none`;
likewise a non-positive page or limit drives the store's skip/limit
arithmetic out of its supported range. -/
def paginate (q : ListQuery) (all : List Task) (total : Nat) : Option PagedResult :=
  match effPage q, effLimit q with
  | some p, some l =>
      if 0 < p ∧ 0 < l then
        some
          { tasks := (all.drop ((p - 1) * l).toNat).take l.toNat
            current := p
            pages := (ceilDivNat total l.toNat : Nat)
            total := total }
      else none
  | _, _ => none

/-- `GET '/'` (tasks.js lines 32-141) end to end. -/
def listTasksRun (q : ListQuery) (ts : List Task) : Option PagedResult :=
  paginate q (listTasksAll q ts) (ts.filter (taskFilterOk q)).length

/-- `GET '/trash/list'` (tasks.js lines 144-181) end to end. -/
def listTrashRun (q : ListQuery) (ts : List Task) : Option PagedResult :=
  paginate q (listTrashAll q ts) (ts.filter (trashFilterOk q)).length

/-- One suggestion of `GET '/search/suggestions'`: the projected fields plus
the computed `matchType`. -/
structure Suggestion where
  title : String
  description : String
  status : Status
  matchType : String
deriving DecidableEq

/-- The `$match` of the suggestions pipeline (tasks.js lines 398-404): title
or description starts with the term, case-insensitively — with no condition
on `isDeleted`. -/
def suggestMatch (term : String) (t : Task) : Bool :=
  ciStarts term t.title || ciStarts term t.description

/-- The `$project` of the suggestions pipeline: `matchType` is `"title"`
when the title starts with the term, else `"description"`. -/
def suggestOf (term : String) (t : Task) : Suggestion :=
  { title := t.title
    description := t.description
    status := t.status
    matchType := if ciStarts term t.title then "title" else "description" }

/-- `GET '/search/suggestions'` (tasks.js lines 385-428): a missing or blank
query returns no suggestions, otherwise the matching records in store order,
capped at 10 by `$limit`. -/
def suggestRun (q : Option String) (ts : List Task) : List Suggestion :=
  match q with
  | none => []
  | some s =>
      if jsTrim s = "" then []
      else ((ts.filter (suggestMatch (jsTrim s))).take 10).map (suggestOf (jsTrim s))

/-! Invariant of the data model: `completedAt` is non-null exactly on
completed tasks and `deletedAt` exactly on soft-deleted ones. -/

/-- The two timestamp invariants stated in the data model. -/
def TaskInv (t : Task) : Prop :=
  (t.completedAt ≠ none ↔ t.status = Status.completed) ∧
    (t.deletedAt ≠ none ↔ t.isDeleted = true)

theorem taskInv_applyUpdateData (t : Task) (u : UpdateData) (now : Nat)
    (h : TaskInv t) : TaskInv (applyUpdateData t u now) := by
  unfold TaskInv at h ⊢
  unfold applyUpdateData
  cases hs : u.status with
  | none => simpa [hs] using h
  | some st => cases st <;> simp_all

theorem taskInv_map (store : List Task) (f : Task → Task)
    (hInv : ∀ t ∈ store, TaskInv t)
    (hf : ∀ t ∈ store, TaskInv t → TaskInv (f t)) :
    ∀ t ∈ store.map f, TaskInv t := by
  intro t ht
  rcases List.mem_map.mp ht with ⟨s, hs, hst⟩
  exact hst ▸ hf s hs (hInv s hs)

theorem preSaveHook_newDoc (pD : Option String) (tl : String) (newId now : Nat) :
    preSaveHook (newDoc pD tl newId now) now = newDoc pD tl newId now := by
  simp [preSaveHook, newDoc]

theorem createTask_ok {store : List Task} {pT pD pS : Option String}
    {newId now : Nat} {s' : List Task} {d : Task}
    (h : createTask store pT pD pS newId now = Except.ok (s', d)) :
    ∃ tl, pT = some tl ∧ jsTrim tl ≠ "" ∧ s' = store ++ [d] ∧
      d = newDoc pD tl newId now := by
  cases pT with
  | none => simp [createTask] at h
  | some tl =>
      simp only [createTask] at h
      by_cases htr : jsTrim tl = ""
      · rw [if_pos htr] at h; cases h
      · rw [if_neg htr] at h
        unfold saveDoc at h
        rw [preSaveHook_newDoc] at h
        by_cases hv : validDoc (newDoc pD tl newId now) = true
        · rw [if_pos hv] at h
          injection h with h2
          obtain ⟨h3, h4⟩ := Prod.mk.inj h2
          exact ⟨tl, rfl, htr, by rw [← h3, ← h4], h4.symm⟩
        · rw [if_neg hv] at h; cases h

theorem putUpdateTask_ok {store : List Task} {i : Nat} {pT pD pS : Option String}
    {now : Nat} {s' : List Task} {d : Task}
    (h : putUpdateTask store i pT pD pS now = Except.ok (s', d)) :
    ∃ ex u, store.find? (fun t => t.id == i) = some ex ∧
      d = applyUpdateData ex u now ∧
      s' = store.map (fun t => if t.id == i then applyUpdateData ex u now else t) := by
  cases hb : buildUpdateData pT pD pS with
  | error e => simp [putUpdateTask, hb] at h
  | ok u0 =>
      simp only [putUpdateTask, hb] at h
      cases hf : store.find? (fun t => t.id == i) with
      | none => simp [hf] at h
      | some ex =>
          simp only [hf] at h
          cases hr : (if ex.status = Status.completed
                      then putCompletedRules pS else Except.ok u0) with
          | error e => simp [hr] at h
          | ok u =>
              simp only [hr] at h
              unfold finishUpdate at h
              by_cases hv : validUpdateData u = true
              · rw [if_pos hv] at h
                injection h with h2
                obtain ⟨h3, h4⟩ := Prod.mk.inj h2
                exact ⟨ex, u, rfl, h4.symm, h3.symm⟩
              · rw [if_neg hv] at h; cases h

theorem patchUpdateTask_ok {store : List Task} {i : Nat} {pT pD pS : Option String}
    {now : Nat} {s' : List Task} {d : Task}
    (h : patchUpdateTask store i pT pD pS now = Except.ok (s', d)) :
    ∃ ex u, store.find? (fun t => t.id == i) = some ex ∧
      d = applyUpdateData ex u now ∧
      s' = store.map (fun t => if t.id == i then applyUpdateData ex u now else t) := by
  cases hb : buildUpdateData pT pD pS with
  | error e => simp [patchUpdateTask, hb] at h
  | ok u0 =>
      simp only [patchUpdateTask, hb] at h
      by_cases he : u0.isEmpty = true
      · rw [if_pos he] at h; cases h
      · rw [if_neg he] at h
        cases hf : store.find? (fun t => t.id == i) with
        | none => simp [hf] at h
        | some ex =>
            simp only [hf] at h
            cases hr : (if ex.status = Status.completed
                        then patchCompletedRules u0 pS else Except.ok u0) with
            | error e => simp [hr] at h
            | ok u =>
                simp only [hr] at h
                unfold finishUpdate at h
                by_cases hv : validUpdateData u = true
                · rw [if_pos hv] at h
                  injection h with h2
                  obtain ⟨h3, h4⟩ := Prod.mk.inj h2
                  exact ⟨ex, u, rfl, h4.symm, h3.symm⟩
                · rw [if_neg hv] at h; cases h

theorem softDeleteTask_ok {store : List Task} {i now : Nat} {s' : List Task} {d : Task}
    (h : softDeleteTask store i now = Except.ok (s', d)) :
    ∃ t0, store.find? (fun t => t.id == i) = some t0 ∧
      d = { t0 with isDeleted := true, deletedAt := some now } ∧
      s' = store.map (fun t =>
        if t.id == i then { t with isDeleted := true, deletedAt := some now } else t) := by
  cases hf : store.find? (fun t => t.id == i) with
  | none => simp [softDeleteTask, hf] at h
  | some t0 =>
      simp only [softDeleteTask, hf] at h
      injection h with h2
      obtain ⟨h3, h4⟩ := Prod.mk.inj h2
      exact ⟨t0, rfl, h4.symm, h3.symm⟩

theorem restoreTask_ok {store : List Task} {i : Nat} {s' : List Task} {d : Task}
    (h : restoreTask store i = Except.ok (s', d)) :
    ∃ t0, store.find? (fun t => t.id == i) = some t0 ∧
      d = { t0 with isDeleted := false, deletedAt := none } ∧
      s' = store.map (fun t =>
        if t.id == i then { t with isDeleted := false, deletedAt := none } else t) := by
  cases hf : store.find? (fun t => t.id == i) with
  | none => simp [restoreTask, hf] at h
  | some t0 =>
      simp only [restoreTask, hf] at h
      injection h with h2
      obtain ⟨h3, h4⟩ := Prod.mk.inj h2
      exact ⟨t0, rfl, h4.symm, h3.symm⟩

/-- C1: for every task record and after every mutating core operation
(create, full update, partial update, soft-delete, restore), `completedAt`
is non-null if and only if `status == 'completed'`, and `deletedAt` is
non-null if and only if `isDeleted == true`: each operation maps a store all
of whose records satisfy `TaskInv` to a store all of whose records satisfy
`TaskInv`, and its returned record satisfies `TaskInv` as well. -/
theorem c1_lifecycle_invariant (store : List Task)
    (hInv : ∀ t ∈ store, TaskInv t)
    (pTitle pDesc pStatus : Option String) (i newId now : Nat) :
    (∀ s' d, createTask store pTitle pDesc pStatus newId now = Except.ok (s', d) →
        (∀ t ∈ s', TaskInv t) ∧ TaskInv d) ∧
    (∀ s' d, putUpdateTask store i pTitle pDesc pStatus now = Except.ok (s', d) →
        (∀ t ∈ s', TaskInv t) ∧ TaskInv d) ∧
    (∀ s' d, patchUpdateTask store i pTitle pDesc pStatus now = Except.ok (s', d) →
        (∀ t ∈ s', TaskInv t) ∧ TaskInv d) ∧
    (∀ s' d, softDeleteTask store i now = Except.ok (s', d) →
        (∀ t ∈ s', TaskInv t) ∧ TaskInv d) ∧
    (∀ s' d, restoreTask store i = Except.ok (s', d) →
        (∀ t ∈ s', TaskInv t) ∧ TaskInv d) := by
  refine ⟨?_, ?_, ?_, ?_, ?_⟩
  · intro s' d h
    obtain ⟨tl, _, _, hs', hd⟩ := createTask_ok h
    have hdInv : TaskInv d := by
      subst hd; exact ⟨by simp [newDoc], by simp [newDoc]⟩
    refine ⟨?_, hdInv⟩
    intro t ht
    rw [hs'] at ht
    rcases List.mem_append.mp ht with hmem | hmem
    · exact hInv t hmem
    · rcases List.mem_singleton.mp hmem with rfl
      exact hdInv
  · intro s' d h
    obtain ⟨ex, u, hf, hd, hs'⟩ := putUpdateTask_ok h
    have hex : TaskInv ex := hInv ex (List.mem_of_find?_eq_some hf)
    have hdInv : TaskInv d := hd ▸ taskInv_applyUpdateData ex u now hex
    refine ⟨?_, hdInv⟩
    rw [hs']
    refine taskInv_map store _ hInv ?_
    intro t ht htInv
    by_cases hid : (t.id == i) = true
    · rw [if_pos hid]; exact hd ▸ hdInv
    · rw [if_neg hid]; exact htInv
  · intro s' d h
    obtain ⟨ex, u, hf, hd, hs'⟩ := patchUpdateTask_ok h
    have hex : TaskInv ex := hInv ex (List.mem_of_find?_eq_some hf)
    have hdInv : TaskInv d := hd ▸ taskInv_applyUpdateData ex u now hex
    refine ⟨?_, hdInv⟩
    rw [hs']
    refine taskInv_map store _ hInv ?_
    intro t ht htInv
    by_cases hid : (t.id == i) = true
    · rw [if_pos hid]; exact hd ▸ hdInv
    · rw [if_neg hid]; exact htInv
  · intro s' d h
    obtain ⟨t0, hf, hd, hs'⟩ := softDeleteTask_ok h
    have ht0 : TaskInv t0 := hInv t0 (List.mem_of_find?_eq_some hf)
    have hdInv : TaskInv d := by subst hd; exact ⟨ht0.1, by simp⟩
    refine ⟨?_, hdInv⟩
    rw [hs']
    refine taskInv_map store _ hInv ?_
    intro t ht htInv
    by_cases hid : (t.id == i) = true
    · rw [if_pos hid]; exact ⟨htInv.1, by simp⟩
    · rw [if_neg hid]; exact htInv
  · intro s' d h
    obtain ⟨t0, hf, hd, hs'⟩ := restoreTask_ok h
    have ht0 : TaskInv t0 := hInv t0 (List.mem_of_find?_eq_some hf)
    have hdInv : TaskInv d := by subst hd; exact ⟨ht0.1, by simp⟩
    refine ⟨?_, hdInv⟩
    rw [hs']
    refine taskInv_map store _ hInv ?_
    intro t ht htInv
    by_cases hid : (t.id == i) = true
    · rw [if_pos hid]; exact ⟨htInv.1, by simp⟩
    · rw [if_neg hid]; exact htInv

/-- Witness for C1: the record created by a concrete `createTask` call
satisfies both timestamp invariants. -/
theorem c1_lifecycle_invariant_witness :
    TaskInv { id := 0, title := "a", description := "", status := Status.pending,
              isDeleted := false, deletedAt := none, completedAt := none,
              createdAt := 0 } := by
  have h := (c1_lifecycle_invariant [] (by intro t ht; cases ht)
      (some "a") none none 0 0 0).1
  exact (h [⟨0, "a", "", Status.pending, false, none, none, 0⟩]
      ⟨0, "a", "", Status.pending, false, none, none, 0⟩ rfl).2

/-! Completed-task transition rules (claims C2, C3, C4).  In this model an
operation that returns an error returns no new store at all, so an error
leaves every record unchanged by construction. -/

theorem buildUpdateData_some (pT pD : Option String) (s : String) (st : Status)
    (hT : ∀ x, pT = some x → jsTrim x ≠ "") (hs : parseStatus s = some st) :
    buildUpdateData pT pD (some s) =
      Except.ok { title := pT.map jsTrim, description := checkDescription pD,
                  status := some st } := by
  cases pT with
  | none => simp [buildUpdateData, checkTitle, checkStatus, hs]
  | some x => simp [buildUpdateData, checkTitle, hT x rfl, checkStatus, hs]

theorem buildUpdateData_noStatus (pT pD : Option String)
    (hT : ∀ x, pT = some x → jsTrim x ≠ "") :
    buildUpdateData pT pD none =
      Except.ok { title := pT.map jsTrim, description := checkDescription pD,
                  status := none } := by
  cases pT with
  | none => simp [buildUpdateData, checkTitle, checkStatus]
  | some x => simp [buildUpdateData, checkTitle, hT x rfl, checkStatus]

/-- C2: on an existing task whose status is `'completed'`, a full or partial
update whose patch explicitly requests a status other than `'in-progress'`
(that is, `'pending'` or `'completed'`) fails with the invalid-transition
error — returning no new store, so the record is unchanged — while a patch
requesting `status = 'in-progress'` is allowed to proceed. -/
theorem c2_completed_transitions (store : List Task) (i : Nat) (ex : Task)
    (pT pD : Option String) (s : String) (now : Nat)
    (hfind : store.find? (fun t => t.id == i) = some ex)
    (hc : ex.status = Status.completed)
    (hT : ∀ x, pT = some x → jsTrim x ≠ "") :
    ((s = "pending" ∨ s = "completed") →
      putUpdateTask store i pT pD (some s) now =
        Except.error (TaskError.invalidTransition
          "Completed tasks can only be reverted to in-progress") ∧
      patchUpdateTask store i pT pD (some s) now =
        Except.error (TaskError.invalidTransition
          "Completed tasks can only be reverted to in-progress")) ∧
    (s = "in-progress" →
      (∃ r, putUpdateTask store i pT pD (some s) now = Except.ok r) ∧
      (∃ r, patchUpdateTask store i pT pD (some s) now = Except.ok r)) := by
  constructor
  · rintro (rfl | rfl)
    · have hb := buildUpdateData_some pT pD "pending" Status.pending hT rfl
      constructor
      · simp [putUpdateTask, hb, hfind, hc, putCompletedRules]
      · simp [patchUpdateTask, hb, hfind, hc, patchCompletedRules, UpdateData.isEmpty]
    · have hb := buildUpdateData_some pT pD "completed" Status.completed hT rfl
      constructor
      · simp [putUpdateTask, hb, hfind, hc, putCompletedRules]
      · simp [patchUpdateTask, hb, hfind, hc, patchCompletedRules, UpdateData.isEmpty]
  · rintro rfl
    have hb := buildUpdateData_some pT pD "in-progress" Status.inProgress hT rfl
    constructor
    · refine ⟨(store.map (fun t =>
          if t.id == i then applyUpdateData ex
            { title := none, description := none, status := some Status.inProgress } now
          else t),
          applyUpdateData ex
            { title := none, description := none, status := some Status.inProgress } now),
        ?_⟩
      simp [putUpdateTask, hb, hfind, hc, putCompletedRules, finishUpdate,
        validUpdateData]
    · refine ⟨(store.map (fun t =>
          if t.id == i then applyUpdateData ex
            { title := none, description := none, status := some Status.inProgress } now
          else t),
          applyUpdateData ex
            { title := none, description := none, status := some Status.inProgress } now),
        ?_⟩
      simp [patchUpdateTask, hb, hfind, hc, patchCompletedRules, UpdateData.isEmpty,
        finishUpdate, validUpdateData]

/-- Witness for C2: on a concrete completed task, requesting
`status = 'pending'` through the full-update route yields the
invalid-transition error. -/
theorem c2_completed_transitions_witness :
    putUpdateTask [⟨1, "t", "", Status.completed, false, none, some 5, 0⟩] 1
        none none (some "pending") 9 =
      Except.error (TaskError.invalidTransition
        "Completed tasks can only be reverted to in-progress") := by
  have h := c2_completed_transitions
      [⟨1, "t", "", Status.completed, false, none, some 5, 0⟩] 1
      ⟨1, "t", "", Status.completed, false, none, some 5, 0⟩
      none none "pending" 9 rfl rfl (by intro x hx; cases hx)
  exact (h.1 (Or.inl rfl)).1

/-- C3: on an existing completed task, a patch carrying title and/or
description but no status fails with "Completed tasks cannot be edited" on
the full-update route, while the partial-update route succeeds, silently
dropping those fields: it returns the record entirely unchanged. -/
theorem c3_completed_edit_asymmetry (store : List Task) (i : Nat) (ex : Task)
    (pT pD : Option String) (now : Nat)
    (hfind : store.find? (fun t => t.id == i) = some ex)
    (hc : ex.status = Status.completed)
    (hT : ∀ x, pT = some x → jsTrim x ≠ "")
    (hsome : pT ≠ none ∨ pD ≠ none) :
    putUpdateTask store i pT pD none now =
      Except.error (TaskError.invalidTransition "Completed tasks cannot be edited") ∧
    patchUpdateTask store i pT pD none now =
      Except.ok (store.map (fun t => if t.id == i then ex else t), ex) := by
  have hb := buildUpdateData_noStatus pT pD hT
  have hne : UpdateData.isEmpty
      { title := pT.map jsTrim, description := checkDescription pD, status := none } =
        false := by
    rcases hsome with hp | hp
    · cases pT with
      | none => exact absurd rfl hp
      | some x => simp [UpdateData.isEmpty]
    · cases pD with
      | none => exact absurd rfl hp
      | some x => simp [UpdateData.isEmpty, checkDescription]
  have happ : applyUpdateData ex { title := none, description := none, status := none }
      now = ex := by
    simp [applyUpdateData]
  constructor
  · simp [putUpdateTask, hb, hfind, hc, putCompletedRules]
  · simp [patchUpdateTask, hb, hne, hfind, hc, patchCompletedRules, finishUpdate,
      validUpdateData, happ]

/-- Witness for C3: on a concrete completed task, a partial update carrying
only a new title succeeds and returns the task unchanged. -/
theorem c3_completed_edit_asymmetry_witness :
    patchUpdateTask [⟨1, "t", "d", Status.completed, false, none, some 5, 0⟩] 1
        (some "new") none none 9 =
      Except.ok ([⟨1, "t", "d", Status.completed, false, none, some 5, 0⟩],
        ⟨1, "t", "d", Status.completed, false, none, some 5, 0⟩) := by
  have h := c3_completed_edit_asymmetry
      [⟨1, "t", "d", Status.completed, false, none, some 5, 0⟩] 1
      ⟨1, "t", "d", Status.completed, false, none, some 5, 0⟩
      (some "new") none 9 rfl rfl
      (by intro x hx; cases hx; decide)
      (Or.inl (by simp))
  exact h.2.trans (by rfl)

/-- C4: on an existing completed task, an update (full or partial) whose
patch requests `status = 'in-progress'` together with any valid new title
and/or description succeeds: the title/description changes are silently
dropped, the status becomes `'in-progress'`, and `completedAt` is cleared. -/
theorem c4_revert_drops_fields (store : List Task) (i : Nat) (ex : Task)
    (pT pD : Option String) (now : Nat)
    (hfind : store.find? (fun t => t.id == i) = some ex)
    (hc : ex.status = Status.completed)
    (hT : ∀ x, pT = some x → jsTrim x ≠ "") :
    putUpdateTask store i pT pD (some "in-progress") now =
      Except.ok (store.map (fun t =>
          if t.id == i then { ex with status := Status.inProgress, completedAt := none }
          else t),
        { ex with status := Status.inProgress, completedAt := none }) ∧
    patchUpdateTask store i pT pD (some "in-progress") now =
      Except.ok (store.map (fun t =>
          if t.id == i then { ex with status := Status.inProgress, completedAt := none }
          else t),
        { ex with status := Status.inProgress, completedAt := none }) := by
  have hb := buildUpdateData_some pT pD "in-progress" Status.inProgress hT rfl
  have happ : applyUpdateData ex
      { title := none, description := none, status := some Status.inProgress } now =
        { ex with status := Status.inProgress, completedAt := none } := by
    simp [applyUpdateData]
  constructor
  · simp [putUpdateTask, hb, hfind, hc, putCompletedRules, finishUpdate,
      validUpdateData, happ]
  · simp [patchUpdateTask, hb, hfind, hc, patchCompletedRules, UpdateData.isEmpty,
      finishUpdate, validUpdateData, happ]

/-- Witness for C4: reverting a concrete completed task to in-progress while
also sending a new title succeeds, keeps the old title, and clears
`completedAt`. -/
theorem c4_revert_drops_fields_witness :
    putUpdateTask [⟨1, "t", "d", Status.completed, false, none, some 5, 0⟩] 1
        (some "new") none (some "in-progress") 9 =
      Except.ok ([⟨1, "t", "d", Status.inProgress, false, none, none, 0⟩],
        ⟨1, "t", "d", Status.inProgress, false, none, none, 0⟩) := by
  have h := c4_revert_drops_fields
      [⟨1, "t", "d", Status.completed, false, none, some 5, 0⟩] 1
      ⟨1, "t", "d", Status.completed, false, none, some 5, 0⟩
      (some "new") none 9 rfl rfl
      (by intro x hx; cases hx; decide)
  exact h.1.trans (by rfl)

/-! Trimming is idempotent; needed because the schema re-validates the
already-trimmed title on save. -/

theorem trimData_eq_rdrop (l : List Char) :
    trimData l = List.rdropWhile isSpaceChar (l.dropWhile isSpaceChar) := rfl

theorem dropWhile_trimData (l : List Char) :
    (trimData l).dropWhile isSpaceChar = trimData l := by
  rw [trimData_eq_rdrop]
  apply List.dropWhile_eq_self_iff.mpr
  intro hl
  have hpre := List.rdropWhile_prefix isSpaceChar (l.dropWhile isSpaceChar)
  have hlen : 0 < (l.dropWhile isSpaceChar).length :=
    lt_of_lt_of_le hl hpre.length_le
  have hget : (List.rdropWhile isSpaceChar (l.dropWhile isSpaceChar)).get ⟨0, hl⟩ =
      (l.dropWhile isSpaceChar).get ⟨0, hlen⟩ := by
    simpa using hpre.getElem hl
  rw [hget]
  exact List.dropWhile_get_zero_not isSpaceChar l hlen

theorem trimData_idem (l : List Char) : trimData (trimData l) = trimData l := by
  conv_lhs => rw [trimData_eq_rdrop (trimData l)]
  rw [dropWhile_trimData, trimData_eq_rdrop, List.rdropWhile_idempotent]

theorem jsTrim_idem (s : String) : jsTrim (jsTrim s) = jsTrim s :=
  congrArg String.mk (trimData_idem s.data)

/-! Creation (claim C5).  The schema caps the title at 100 characters and the
description at 500, so the claim's "every non-blank title" needs those bounds;
an error returns no new store, so nothing is stored on failure. -/

/-- A 101-character title, over the schema's `maxlength: 100` cap. -/
def longTitle101 : String := String.mk (List.replicate 101 'a')

/-- C5, amended: for every title that is non-blank after trimming and at most
100 characters, with the description absent or at most 500 characters after
trimming, `create` produces a record with `status = 'pending'` (whatever
status the caller supplied), `isDeleted = false`, `completedAt = null`, the
trimmed title, and the trimmed description defaulting to the empty string;
a missing or blank title fails with `ValidationError` and stores nothing. -/
theorem c5_create_pending (store : List Task) (tl : String)
    (pDesc pStatus : Option String) (newId now : Nat)
    (h1 : jsTrim tl ≠ "") (h2 : (jsTrim tl).length ≤ 100)
    (hD : ∀ d, pDesc = some d → (jsTrim d).length ≤ 500) :
    (createTask store (some tl) pDesc pStatus newId now =
      Except.ok (store ++ [newDoc pDesc tl newId now], newDoc pDesc tl newId now)) ∧
    (newDoc pDesc tl newId now).status = Status.pending ∧
    (newDoc pDesc tl newId now).isDeleted = false ∧
    (newDoc pDesc tl newId now).completedAt = none ∧
    (newDoc pDesc tl newId now).deletedAt = none ∧
    (newDoc pDesc tl newId now).title = jsTrim tl ∧
    (newDoc pDesc tl newId now).description = (pDesc.map jsTrim).getD "" ∧
    (∀ pd ps, createTask store none pd ps newId now =
      Except.error (TaskError.validation "Title is required")) ∧
    (∀ tb pd ps, jsTrim tb = "" → createTask store (some tb) pd ps newId now =
      Except.error (TaskError.validation "Title is required")) := by
  have hv : validDoc (newDoc pDesc tl newId now) = true := by
    cases pDesc with
    | none => simp [validDoc, newDoc, jsTrim_idem, h1, h2]
    | some d => simp [validDoc, newDoc, jsTrim_idem, h1, h2, hD d rfl]
  refine ⟨?_, rfl, rfl, rfl, rfl, rfl, rfl, ?_, ?_⟩
  · simp only [createTask]
    rw [if_neg h1]
    unfold saveDoc
    rw [preSaveHook_newDoc, if_pos hv]
  · intro pd ps; simp [createTask]
  · intro tb pd ps htb; simp [createTask, htb]

/-- Witness for C5: creating a concrete task with a padded title, no
description and a caller-supplied `'completed'` status stores the trimmed
title with status `'pending'` and null timestamps. -/
theorem c5_create_pending_witness :
    createTask [] (some " hi ") none (some "completed") 3 7 =
      Except.ok ([⟨3, "hi", "", Status.pending, false, none, none, 7⟩],
        ⟨3, "hi", "", Status.pending, false, none, none, 7⟩) := by
  have h := c5_create_pending [] " hi " none (some "completed") 3 7
      (by decide) (by decide) (by intro d hd; cases hd)
  exact h.1.trans (by rfl)

/-- Counterexample to C5 as stated: a 101-character title is non-blank after
trimming, yet `create` rejects it (the schema's `maxlength` validator fails
the save with the route's 500 error) and stores no record. -/
theorem c5_counterexample :
    jsTrim longTitle101 ≠ "" ∧
    createTask [] (some longTitle101) none none 0 0 =
      Except.error (TaskError.store "Failed to create task") := by
  constructor
  · decide
  · rfl

/-! Search ranking and keyword filtering (claims C6, C8). -/

theorem hasPrefixB_hasSubstrB {needle l : List Char}
    (h : hasPrefixB needle l = true) : hasSubstrB needle l = true := by
  cases l with
  | nil => exact h
  | cons c t => simp [hasSubstrB, h]

theorem ciStarts_ciContains (term s : String)
    (h : ciStarts term s = true) : ciContains term s = true :=
  hasPrefixB_hasSubstrB h

/-- C6: with a keyword, the full result set of `GET '/'` is ordered by
priority descending then creation time descending, where the priority of a
record is 3 when its title starts with the term, else 2 when its description
starts with it, else 1 when its title contains it, else 0; without a keyword
it is ordered by creation time descending only; and the trash listing is
ordered by deletion time descending. -/
theorem c6_ranked_ordering (q : ListQuery) (ts : List Task) :
    (∀ term, keywordTermOf q.keyword = some term →
      (listTasksAll q ts).Sorted (rPri term) ∧
      ∀ t : Task, priorityOf term t =
        (if ciStarts term t.title = true then 3
         else if ciStarts term t.description = true then 2
         else if ciContains term t.title = true then 1 else 0)) ∧
    (keywordTermOf q.keyword = none → (listTasksAll q ts).Sorted rCreated) ∧
    (listTrashAll q ts).Sorted rDeleted := by
  refine ⟨?_, ?_, ?_⟩
  · intro term hterm
    refine ⟨?_, fun t => rfl⟩
    simp only [listTasksAll, hterm]
    exact List.sorted_insertionSort _ _
  · intro h
    simp only [listTasksAll, h]
    exact List.sorted_insertionSort _ _
  · exact List.sorted_insertionSort _ _

/-- Witness for C6: a concrete keyword listing is sorted by the ranking
order. -/
theorem c6_ranked_ordering_witness :
    (listTasksAll ⟨some "b", none, none, none, none⟩
      [⟨1, "b x", "", Status.pending, false, none, none, 4⟩,
       ⟨2, "a b", "", Status.pending, false, none, none, 9⟩]).Sorted (rPri "b") :=
  ((c6_ranked_ordering ⟨some "b", none, none, none, none⟩
      [⟨1, "b x", "", Status.pending, false, none, none, 4⟩,
       ⟨2, "a b", "", Status.pending, false, none, none, 9⟩]).1 "b" rfl).1

/-- C8: for every keyword that is non-empty after trimming, the keyword part
of the list filter (shared by `GET '/'` and `GET '/trash/list'`) matches
exactly the records whose title or description contains the trimmed keyword
as a case-insensitive substring; inside the two complete filters it is
exactly that conjunct. -/
theorem c8_keyword_filter (k : String) (t : Task) (hk : jsTrim k ≠ "") :
    (kwOk (some k) t = true ↔
      (ciContains (jsTrim k) t.title = true ∨
        ciContains (jsTrim k) t.description = true)) ∧
    (∀ q : ListQuery, q.keyword = some k →
      (taskFilterOk q t = true ↔
        (visibleOk q t = true ∧ statusFilterOk q.status t = true ∧
          (ciContains (jsTrim k) t.title = true ∨
            ciContains (jsTrim k) t.description = true))) ∧
      (trashFilterOk q t = true ↔
        (t.isDeleted = true ∧ statusFilterOk q.status t = true ∧
          (ciContains (jsTrim k) t.title = true ∨
            ciContains (jsTrim k) t.description = true)))) := by
  have hmain : kwOk (some k) t = true ↔
      (ciContains (jsTrim k) t.title = true ∨
        ciContains (jsTrim k) t.description = true) := by
    have hkw : kwOk (some k) t = orMatch (jsTrim k) t := by
      simp only [kwOk, keywordTermOf, if_neg hk]
    rw [hkw]
    unfold orMatch
    constructor
    · intro h
      simp only [Bool.or_eq_true] at h
      rcases h with ((h | h) | h) | h
      · exact Or.inl (ciStarts_ciContains _ _ h)
      · exact Or.inr (ciStarts_ciContains _ _ h)
      · exact Or.inl h
      · exact Or.inr h
    · intro h
      simp only [Bool.or_eq_true]
      rcases h with h | h
      · exact Or.inl (Or.inr h)
      · exact Or.inr h
  refine ⟨hmain, ?_⟩
  intro q hq
  constructor
  · simp only [taskFilterOk, hq, Bool.and_eq_true, hmain]
    tauto
  · simp only [trashFilterOk, hq, Bool.and_eq_true, hmain]
    tauto

/-- Witness for C8: "LOVE" is found in a description under the keyword
" love " after trimming and case folding, and the record passes the default
filter. -/
theorem c8_keyword_filter_witness :
    kwOk (some " love ")
      ⟨1, "t", "I LOVE this", Status.pending, false, none, none, 0⟩ = true :=
  (c8_keyword_filter " love "
      ⟨1, "t", "I LOVE this", Status.pending, false, none, none, 0⟩
      (by decide)).1.mpr (Or.inr (by decide))

/-! Soft-delete / restore / hard-delete visibility (claim C7). -/

theorem mem_listTasksAll {q : ListQuery} {ts : List Task} {u : Task} :
    u ∈ listTasksAll q ts ↔ u ∈ ts ∧ taskFilterOk q u = true := by
  unfold listTasksAll
  cases h : keywordTermOf q.keyword with
  | some term =>
      rw [(List.perm_insertionSort (rPri term) _).mem_iff, List.mem_filter]
  | none =>
      rw [(List.perm_insertionSort rCreated _).mem_iff, List.mem_filter]

theorem mem_listTrashAll {q : ListQuery} {ts : List Task} {u : Task} :
    u ∈ listTrashAll q ts ↔ u ∈ ts ∧ trashFilterOk q u = true := by
  unfold listTrashAll
  rw [(List.perm_insertionSort rDeleted _).mem_iff, List.mem_filter]

theorem hardDeleteTask_ok {store : List Task} {i : Nat} {s' : List Task} {d : Task}
    (h : hardDeleteTask store i = Except.ok (s', d)) :
    ∃ t0, store.find? (fun t => t.id == i) = some t0 ∧ d = t0 ∧
      s' = store.filter (fun t => !(t.id == i)) := by
  cases hf : store.find? (fun t => t.id == i) with
  | none => simp [hardDeleteTask, hf] at h
  | some t0 =>
      simp only [hardDeleteTask, hf] at h
      injection h with h2
      obtain ⟨h3, h4⟩ := Prod.mk.inj h2
      exact ⟨t0, rfl, h4.symm, h3.symm⟩

/-- C7: soft-deleting a task removes it from default `listTasks` results
while it remains visible with `includeDeleted=true` and in `listTrash`;
restoring it makes it visible in default `listTasks` results again; and
hard-deleting it leaves it absent from `listTasks` under every query, from
`listTrash`, and from `getTask`. -/
theorem c7_soft_delete_visibility (ts : List Task) (t : Task) (i now : Nat)
    (hmem : t ∈ ts) (hid : t.id = i) :
    (∃ s1 d1, softDeleteTask ts i now = Except.ok (s1, d1)) ∧
    (∀ s1 d1, softDeleteTask ts i now = Except.ok (s1, d1) →
      (∀ q : ListQuery, q.includeDeleted ≠ some "true" →
        ∀ u ∈ listTasksAll q s1, u.id ≠ i) ∧
      d1 ∈ listTasksAll ⟨none, none, none, none, some "true"⟩ s1 ∧
      d1 ∈ listTrashAll ⟨none, none, none, none, none⟩ s1 ∧
      (∀ s2 d2, restoreTask s1 i = Except.ok (s2, d2) →
        d2 ∈ listTasksAll ⟨none, none, none, none, none⟩ s2) ∧
      (∀ s3 d3, hardDeleteTask s1 i = Except.ok (s3, d3) →
        (∀ q : ListQuery, ∀ u ∈ listTasksAll q s3, u.id ≠ i) ∧
        (∀ q : ListQuery, ∀ u ∈ listTrashAll q s3, u.id ≠ i) ∧
        getTask s3 i = none)) := by
  constructor
  · cases hf : ts.find? (fun x => x.id == i) with
    | none =>
        rw [List.find?_eq_none] at hf
        exact absurd (show (t.id == i) = true by simp [hid]) (hf t hmem)
    | some t0 =>
        refine ⟨ts.map (fun x =>
            if x.id == i then { x with isDeleted := true, deletedAt := some now } else x),
          { t0 with isDeleted := true, deletedAt := some now }, ?_⟩
        simp [softDeleteTask, hf]
  · intro s1 d1 h
    obtain ⟨t0, hf, hd1, hs1⟩ := softDeleteTask_ok h
    have ht0id : (t0.id == i) = true := by
      have h' := List.find?_some hf
      exact h'
    have ht0mem : t0 ∈ ts := List.mem_of_find?_eq_some hf
    have hd1mem : d1 ∈ s1 := by
      rw [hs1]
      refine List.mem_map.mpr ⟨t0, ht0mem, ?_⟩
      rw [if_pos ht0id, ← hd1]
    have hdel_of_id : ∀ u ∈ s1, u.id = i → u.isDeleted = true := by
      intro u humem hui
      rw [hs1] at humem
      rcases List.mem_map.mp humem with ⟨x, _, hxu⟩
      by_cases hxi : (x.id == i) = true
      · rw [if_pos hxi] at hxu; rw [← hxu]
      · rw [if_neg hxi] at hxu
        rw [← hxu] at hui
        exact absurd (by simp [hui]) hxi
    refine ⟨?_, ?_, ?_, ?_, ?_⟩
    · intro q hq u hu hui
      obtain ⟨humem, hufilt⟩ := mem_listTasksAll.mp hu
      have hudel := hdel_of_id u humem hui
      unfold taskFilterOk at hufilt
      simp only [Bool.and_eq_true] at hufilt
      have hv := hufilt.1.1
      unfold visibleOk at hv
      rw [if_neg hq, hudel] at hv
      simp at hv
    · refine mem_listTasksAll.mpr ⟨hd1mem, ?_⟩
      simp [taskFilterOk, visibleOk, statusFilterOk, kwOk, keywordTermOf]
    · refine mem_listTrashAll.mpr ⟨hd1mem, ?_⟩
      subst hd1
      simp [trashFilterOk, statusFilterOk, kwOk, keywordTermOf]
    · intro s2 d2 h2
      obtain ⟨t1, hf1, hd2, hs2⟩ := restoreTask_ok h2
      have ht1id : (t1.id == i) = true := by
        have h' := List.find?_some hf1
        exact h'
      have ht1mem : t1 ∈ s1 := List.mem_of_find?_eq_some hf1
      refine mem_listTasksAll.mpr ⟨?_, ?_⟩
      · rw [hs2]
        refine List.mem_map.mpr ⟨t1, ht1mem, ?_⟩
        rw [if_pos ht1id, ← hd2]
      · subst hd2
        simp [taskFilterOk, visibleOk, statusFilterOk, kwOk, keywordTermOf]
    · intro s3 d3 h3
      obtain ⟨t2, _, _, hs3⟩ := hardDeleteTask_ok h3
      have habs : ∀ u ∈ s3, u.id ≠ i := by
        intro u humem hui
        rw [hs3] at humem
        have := (List.mem_filter.mp humem).2
        rw [hui] at this
        simp at this
      refine ⟨?_, ?_, ?_⟩
      · intro q u hu
        exact habs u (mem_listTasksAll.mp hu).1
      · intro q u hu
        exact habs u (mem_listTrashAll.mp hu).1
      · unfold getTask
        rw [List.find?_eq_none]
        intro x hx
        simp only [beq_iff_eq]
        exact habs x hx

/-- Witness for C7: soft-deleting a concrete task puts it in the trash
listing. -/
theorem c7_soft_delete_visibility_witness :
    (⟨1, "a", "", Status.pending, true, some 5, none, 0⟩ : Task) ∈
      listTrashAll ⟨none, none, none, none, none⟩
        [⟨1, "a", "", Status.pending, true, some 5, none, 0⟩] := by
  have h := c7_soft_delete_visibility
      [⟨1, "a", "", Status.pending, false, none, none, 0⟩]
      ⟨1, "a", "", Status.pending, false, none, none, 0⟩ 1 5
      (by simp) rfl
  exact (h.2 [⟨1, "a", "", Status.pending, true, some 5, none, 0⟩]
      ⟨1, "a", "", Status.pending, true, some 5, none, 0⟩ (by rfl)).2.2.1

/-! Pagination (claim C9) and search suggestions (claim C10). -/

theorem ceilDivNat_bounds (total m : Nat) (hm : 0 < m) :
    total ≤ ceilDivNat total m * m ∧ ceilDivNat total m * m < total + m := by
  unfold ceilDivNat
  have e := Nat.div_add_mod' (total + m - 1) m
  have hlt := Nat.mod_lt (total + m - 1) hm
  omega

theorem paginate_spec (q : ListQuery) (all : List Task) (total : Nat) (p l : Int)
    (hp : effPage q = some p) (hl : effLimit q = some l)
    (hp1 : 0 < p) (hl1 : 0 < l) :
    ∃ res, paginate q all total = some res ∧ res.current = p ∧ res.total = total ∧
      res.tasks.length = min l.toNat (all.length - ((p - 1) * l).toNat) ∧
      (∀ j : Nat, j < l.toNat → res.tasks[j]? = all[((p - 1) * l).toNat + j]?) ∧
      total ≤ res.pages.toNat * l.toNat ∧
      res.pages.toNat * l.toNat < total + l.toNat := by
  have hln : 0 < l.toNat := by omega
  have heq : paginate q all total = some
      { tasks := (all.drop ((p - 1) * l).toNat).take l.toNat,
        current := p, pages := (ceilDivNat total l.toNat : Nat), total := total } := by
    simp only [paginate, hp, hl]
    rw [if_pos ⟨hp1, hl1⟩]
  have hb := ceilDivNat_bounds total l.toNat hln
  refine ⟨_, heq, rfl, rfl, ?_, ?_, ?_, ?_⟩
  · simp [Nat.min_comm]
  · intro j hj
    rw [List.getElem?_take_of_lt hj, List.getElem?_drop]
  · simpa using hb.1
  · simpa using hb.2

/-- C9, amended: missing `page`/`limit` parameters default to 1 and 10, and
for numeric positive values both list routes return the window
`[(page-1)*limit, (page-1)*limit + limit)` of the ordered result set with
metadata `current = page`, `total` the number of matching records, and
`pages = ceil(total/limit)` (characterised by its bounds).  A non-numeric
value is not defaulted: `parseInt` yields `NaN` and no normal response is
produced (see the counterexample). -/
theorem c9_pagination_window (q : ListQuery) (ts : List Task) (p l : Int)
    (hp : effPage q = some p) (hl : effLimit q = some l)
    (hp1 : 0 < p) (hl1 : 0 < l) :
    (∃ res, listTasksRun q ts = some res ∧ res.current = p ∧
      res.total = (ts.filter (taskFilterOk q)).length ∧
      res.tasks.length =
        min l.toNat ((listTasksAll q ts).length - ((p - 1) * l).toNat) ∧
      (∀ j : Nat, j < l.toNat →
        res.tasks[j]? = (listTasksAll q ts)[((p - 1) * l).toNat + j]?) ∧
      res.total ≤ res.pages.toNat * l.toNat ∧
      res.pages.toNat * l.toNat < res.total + l.toNat) ∧
    (∃ res, listTrashRun q ts = some res ∧ res.current = p ∧
      res.total = (ts.filter (trashFilterOk q)).length ∧
      res.tasks.length =
        min l.toNat ((listTrashAll q ts).length - ((p - 1) * l).toNat) ∧
      (∀ j : Nat, j < l.toNat →
        res.tasks[j]? = (listTrashAll q ts)[((p - 1) * l).toNat + j]?) ∧
      res.total ≤ res.pages.toNat * l.toNat ∧
      res.pages.toNat * l.toNat < res.total + l.toNat) ∧
    (q.page = none → effPage q = some 1) ∧
    (q.limit = none → effLimit q = some 10) := by
  refine ⟨?_, ?_, fun h => by simp [effPage, h], fun h => by simp [effLimit, h]⟩
  · obtain ⟨res, h1, h2, h3, h4, h5, h6, h7⟩ :=
      paginate_spec q (listTasksAll q ts) (ts.filter (taskFilterOk q)).length
        p l hp hl hp1 hl1
    exact ⟨res, h1, h2, h3, h4, h5, by rw [h3]; exact h6, by rw [h3]; exact h7⟩
  · obtain ⟨res, h1, h2, h3, h4, h5, h6, h7⟩ :=
      paginate_spec q (listTrashAll q ts) (ts.filter (trashFilterOk q)).length
        p l hp hl hp1 hl1
    exact ⟨res, h1, h2, h3, h4, h5, by rw [h3]; exact h6, by rw [h3]; exact h7⟩

/-- Witness for C9 (amended): with defaulted parameters a singleton store
yields a normal response. -/
theorem c9_pagination_window_witness :
    (listTasksRun ⟨none, none, none, none, none⟩
      [⟨1, "a", "", Status.pending, false, none, none, 0⟩]).isSome = true := by
  obtain ⟨res, h1, _⟩ := (c9_pagination_window ⟨none, none, none, none, none⟩
      [⟨1, "a", "", Status.pending, false, none, none, 0⟩] 1 10
      rfl rfl (by decide) (by decide)).1
  rw [h1]; rfl

/-- Counterexample to C9 as stated: the claim's "non-numeric page/limit
values default to page=1" fails — a non-numeric `page` goes through
`parseInt`, yields `NaN`, and the route produces no normal response instead
of behaving like `page=1`. -/
theorem c9_counterexample :
    listTasksRun ⟨none, none, some "abc", none, none⟩
        [⟨1, "a", "", Status.pending, false, none, none, 0⟩] = none ∧
    listTasksRun ⟨none, none, none, none, none⟩
        [⟨1, "a", "", Status.pending, false, none, none, 0⟩] =
      some ⟨[⟨1, "a", "", Status.pending, false, none, none, 0⟩], 1, 1, 1⟩ ∧
    listTasksRun ⟨none, none, some "abc", none, none⟩
        [⟨1, "a", "", Status.pending, false, none, none, 0⟩] ≠
      listTasksRun ⟨none, none, none, none, none⟩
        [⟨1, "a", "", Status.pending, false, none, none, 0⟩] := by
  refine ⟨rfl, rfl, ?_⟩
  intro h
  rw [show listTasksRun ⟨none, none, some "abc", none, none⟩
      [⟨1, "a", "", Status.pending, false, none, none, 0⟩] = none from rfl] at h
  rw [show listTasksRun ⟨none, none, none, none, none⟩
      [⟨1, "a", "", Status.pending, false, none, none, 0⟩] =
    some ⟨[⟨1, "a", "", Status.pending, false, none, none, 0⟩], 1, 1, 1⟩ from rfl] at h
  cases h

/-- C10: the suggestions route applies no `isDeleted` restriction: a
soft-deleted task whose title or description starts with the (non-blank)
query appears among the up-to-10 suggestions (here: when at most 10 records
match), even though the same task is excluded from every default `listTasks`
result. -/
theorem c10_suggest_ignores_deleted (q : String) (ts : List Task) (t : Task)
    (hmem : t ∈ ts) (hdel : t.isDeleted = true) (hq : jsTrim q ≠ "")
    (hmatch : suggestMatch (jsTrim q) t = true)
    (hsize : (ts.filter (suggestMatch (jsTrim q))).length ≤ 10) :
    suggestOf (jsTrim q) t ∈ suggestRun (some q) ts ∧
    (∀ lq : ListQuery, lq.includeDeleted ≠ some "true" →
      t ∉ listTasksAll lq ts) := by
  constructor
  · simp only [suggestRun]
    rw [if_neg hq, List.take_of_length_le hsize]
    exact List.mem_map_of_mem _ (List.mem_filter.mpr ⟨hmem, hmatch⟩)
  · intro lq hlq hmem2
    obtain ⟨_, hfilt⟩ := mem_listTasksAll.mp hmem2
    unfold taskFilterOk at hfilt
    simp only [Bool.and_eq_true] at hfilt
    have hv := hfilt.1.1
    unfold visibleOk at hv
    rw [if_neg hlq, hdel] at hv
    simp at hv

/-- Witness for C10: a concrete soft-deleted task is suggested for the query
`"a"`. -/
theorem c10_suggest_ignores_deleted_witness :
    suggestOf "a" ⟨1, "abc", "", Status.pending, true, some 2, none, 0⟩ ∈
      suggestRun (some "a") [⟨1, "abc", "", Status.pending, true, some 2, none, 0⟩] :=
  (c10_suggest_ignores_deleted "a"
      [⟨1, "abc", "", Status.pending, true, some 2, none, 0⟩]
      ⟨1, "abc", "", Status.pending, true, some 2, none, 0⟩
      (by simp) rfl (by decide) (by decide) (by decide)).1

end TaskManager
